import Mathlib

/-!
Verification of the fiber-backend user CRUD pipeline.

This file shallowly embeds the handler layer (internal/handlers/user_handler.go),
the service layer (services.UserService), the API models (models package) and the
sqlc SQL queries over the users table (queries/users.sql) as executable Lean
definitions, and proves the claimed properties of the pipeline against them.

Modelling conventions:
- Go int values (ids, page numbers, counts, timestamps) are modelled as Int.
- sql.NullString / sql.NullBool are modelled as explicit value-plus-validity pairs.
- The users table is an explicit list of rows plus the next SERIAL id; each SQL
  statement of queries/users.sql is a pure function on that state.
- The SQL executor environment is explicit: it either executes the statement or
  fails with a driver error message, which lets the service error-classification
  paths be exercised. Unique-constraint violations are not modelled (no claim
  depends on them).
- bcrypt hashing and comparison are modelled as abstract function parameters.
- Go error values are modelled by the message strings the service formats.
-/

/-- Mirrors sql.NullString: a string plus a validity flag; valid = false represents
SQL NULL. -/
structure NullString where
  string : String
  valid : Bool
deriving DecidableEq

/-- Mirrors sql.NullBool. -/
structure NullBool where
  bool : Bool
  valid : Bool
deriving DecidableEq

/-- A storage row of the users table (repository.User), including password_hash.
Timestamps are modelled as integers. -/
structure User where
  id : Int
  email : String
  username : String
  passwordHash : String
  firstName : NullString
  lastName : NullString
  isActive : Bool
  createdAt : Int
  updatedAt : Int
deriving DecidableEq

/-- The users table state: the rows plus the next SERIAL id to assign. -/
structure DB where
  users : List User
  nextId : Int
deriving DecidableEq

/-- The SQL executor environment: statements either execute against the table
state, or the executor fails with a driver error message (connection loss etc.). -/
inductive ExecEnv where
  | healthy
  | failing (msg : String)
deriving DecidableEq

/-- Errors surfaced by the repository layer: sql.ErrNoRows, or any other
driver error. -/
inductive DBError where
  | noRows
  | failure (msg : String)
deriving DecidableEq

instance {ε α : Type} [DecidableEq ε] [DecidableEq α] : DecidableEq (Except ε α) := fun a b =>
  match a, b with
  | .error e, .error f => decidable_of_iff (e = f) (by simp)
  | .error _, .ok _ => Decidable.isFalse (fun h => Except.noConfusion h)
  | .ok _, .error _ => Decidable.isFalse (fun h => Except.noConfusion h)
  | .ok x, .ok y => decidable_of_iff (x = y) (by simp)

/-- The Go error text of a repository error (sql.ErrNoRows has a fixed text). -/
def DBError.message : DBError → String
  | .noRows => "sql: no rows in result set"
  | .failure m => m

/-- models.CreateUserRequest: plain (non-pointer) string fields, exactly as the Go
struct declares them, so an omitted optional field and an empty one both decode
to the empty string. -/
structure CreateUserRequest where
  email : String
  username : String
  password : String
  firstName : String
  lastName : String
deriving DecidableEq

/-- models.UpdateUserRequest: pointer fields, so an omitted field (none) is
distinguished from a present-but-empty one (some value). -/
structure UpdateUserRequest where
  email : Option String
  username : Option String
  firstName : Option String
  lastName : Option String
  isActive : Option Bool
deriving DecidableEq

/-- models.UserResponse: the wire representation of a user. It has no password
field at all; first/last name are optional so absent stays absent. -/
structure UserResponse where
  id : Int
  email : String
  username : String
  firstName : Option String
  lastName : Option String
  isActive : Bool
  createdAt : Int
  updatedAt : Int
deriving DecidableEq

/-- models.ListUsersRequest. -/
structure ListUsersRequest where
  page : Int
  pageSize : Int
deriving DecidableEq

/-- models.ListUsersResponse: the page envelope. -/
structure ListUsersResponse where
  users : List UserResponse
  totalCount : Int
  page : Int
  pageSize : Int
  totalPages : Int
deriving DecidableEq

/-- A JSON scalar, enough to describe the serialized wire User. -/
inductive JsonValue where
  | str (s : String)
  | num (n : Int)
  | bool (b : Bool)
deriving DecidableEq

/-- The JSON object produced for a UserResponse, following the struct's json
tags: first_name/last_name carry omitempty on a pointer, so a nil pointer is
omitted while a present empty string is serialized. -/
def UserResponse.jsonFields (r : UserResponse) : List (String × JsonValue) :=
  [("id", .num r.id), ("email", .str r.email), ("username", .str r.username)]
    ++ (match r.firstName with
        | some v => [("first_name", .str v)]
        | none => [])
    ++ (match r.lastName with
        | some v => [("last_name", .str v)]
        | none => [])
    ++ [("is_active", .bool r.isActive), ("created_at", .num r.createdAt),
        ("updated_at", .num r.updatedAt)]

/-- The key set of the serialized wire User. -/
def UserResponse.jsonKeys (r : UserResponse) : List String :=
  r.jsonFields.map Prod.fst

/-- repository.CreateUserParams. -/
structure CreateUserParams where
  email : String
  username : String
  passwordHash : String
  firstName : NullString
  lastName : NullString
deriving DecidableEq

/-- repository.UpdateUserParams: nullable parameters feeding the COALESCE update. -/
structure UpdateUserParams where
  id : Int
  email : NullString
  username : NullString
  firstName : NullString
  lastName : NullString
  isActive : NullBool
deriving DecidableEq

/-- Insert a row into a list ordered by createdAt descending. -/
def insertByCreated (u : User) : List User → List User
  | [] => [u]
  | v :: vs => if v.createdAt ≤ u.createdAt then u :: v :: vs else v :: insertByCreated u vs

/-- ORDER BY created_at DESC of the SQL list statement. -/
def sortByCreatedDesc : List User → List User
  | [] => []
  | u :: us => insertByCreated u (sortByCreatedDesc us)

/-- Query CreateUser (INSERT ... RETURNING *): assigns the next SERIAL id, applies
the is_active DEFAULT TRUE and CURRENT_TIMESTAMP defaults, and returns the row. -/
def Queries.CreateUser (env : ExecEnv) (db : DB) (now : Int) (p : CreateUserParams) :
    DB × Except DBError User :=
  match env with
  | .failing m => (db, .error (.failure m))
  | .healthy =>
    let u : User :=
      { id := db.nextId, email := p.email, username := p.username,
        passwordHash := p.passwordHash, firstName := p.firstName,
        lastName := p.lastName, isActive := true, createdAt := now, updatedAt := now }
    ({ users := db.users ++ [u], nextId := db.nextId + 1 }, .ok u)

/-- Query GetUserByID (SELECT * WHERE id = $1 LIMIT 1). -/
def Queries.GetUserByID (env : ExecEnv) (db : DB) (id : Int) : Except DBError User :=
  match env with
  | .failing m => .error (.failure m)
  | .healthy =>
    match db.users.find? (fun u => u.id == id) with
    | some u => .ok u
    | none => .error .noRows

/-- Query GetUserByEmail (SELECT * WHERE email = $1 LIMIT 1). -/
def Queries.GetUserByEmail (env : ExecEnv) (db : DB) (email : String) : Except DBError User :=
  match env with
  | .failing m => .error (.failure m)
  | .healthy =>
    match db.users.find? (fun u => u.email == email) with
    | some u => .ok u
    | none => .error .noRows

/-- Query ListUsers (SELECT * ORDER BY created_at DESC LIMIT $1 OFFSET $2).
A negative LIMIT or OFFSET is a statement error in PostgreSQL. -/
def Queries.ListUsers (env : ExecEnv) (db : DB) (limit offset : Int) :
    Except DBError (List User) :=
  match env with
  | .failing m => .error (.failure m)
  | .healthy =>
    if limit < 0 ∨ offset < 0 then .error (.failure "LIMIT must not be negative")
    else .ok (((sortByCreatedDesc db.users).drop offset.toNat).take limit.toNat)

/-- Query CountUsers (SELECT COUNT(*) FROM users). -/
def Queries.CountUsers (env : ExecEnv) (db : DB) : Except DBError Int :=
  match env with
  | .failing m => .error (.failure m)
  | .healthy => .ok (db.users.length : Int)

/-- The per-row effect of the COALESCE update statement: a NULL parameter keeps
the stored column, a non-NULL parameter (even an empty string) overwrites it;
updated_at is always refreshed. -/
def applyUpdateRow (now : Int) (p : UpdateUserParams) (u : User) : User :=
  { u with
    email := if p.email.valid then p.email.string else u.email,
    username := if p.username.valid then p.username.string else u.username,
    firstName := if p.firstName.valid then { string := p.firstName.string, valid := true } else u.firstName,
    lastName := if p.lastName.valid then { string := p.lastName.string, valid := true } else u.lastName,
    isActive := if p.isActive.valid then p.isActive.bool else u.isActive,
    updatedAt := now }

/-- Query UpdateUser (UPDATE ... SET col = COALESCE($n, col) ... WHERE id = $1
RETURNING *): sql.ErrNoRows when no row matches the id. -/
def Queries.UpdateUser (env : ExecEnv) (db : DB) (now : Int) (p : UpdateUserParams) :
    DB × Except DBError User :=
  match env with
  | .failing m => (db, .error (.failure m))
  | .healthy =>
    match db.users.find? (fun u => u.id == p.id) with
    | none => (db, .error .noRows)
    | some u =>
      ({ db with users := db.users.map (fun x => if x.id == p.id then applyUpdateRow now p x else x) },
       .ok (applyUpdateRow now p u))

/-- Query DeleteUser (DELETE FROM users WHERE id = $1), an exec statement: it
reports success whether or not any row matched. -/
def Queries.DeleteUser (env : ExecEnv) (db : DB) (id : Int) : DB × Except DBError Unit :=
  match env with
  | .failing m => (db, .error (.failure m))
  | .healthy =>
    ({ db with users := db.users.filter (fun u => !(u.id == id)) }, .ok ())

/-- services.UserService.toUserResponse: strips password_hash and converts the
nullable storage fields to optional wire fields. -/
def toUserResponse (user : User) : UserResponse :=
  { id := user.id, email := user.email, username := user.username,
    firstName := if user.firstName.valid then some user.firstName.string else none,
    lastName := if user.lastName.valid then some user.lastName.string else none,
    isActive := user.isActive, createdAt := user.createdAt, updatedAt := user.updatedAt }

/-- services.UserService.CreateUser: hashes the password, maps the plain request
strings to nullable insert parameters (empty string becomes NULL), inserts, and
converts the returned row. -/
def UserService.CreateUser (hash : String → String) (env : ExecEnv) (db : DB) (now : Int)
    (req : CreateUserRequest) : DB × Except String UserResponse :=
  let passwordHash := hash req.password
  let params : CreateUserParams :=
    { email := req.email, username := req.username, passwordHash := passwordHash,
      firstName := { string := req.firstName, valid := req.firstName != "" },
      lastName := { string := req.lastName, valid := req.lastName != "" } }
  match Queries.CreateUser env db now params with
  | (db', .error e) => (db', .error ("ошибка создания пользователя: " ++ e.message))
  | (db', .ok u) => (db', .ok (toUserResponse u))

/-- services.UserService.GetUserByID: classifies sql.ErrNoRows as the not-found
message and wraps any other storage error. -/
def UserService.GetUserByID (env : ExecEnv) (db : DB) (id : Int) : Except String UserResponse :=
  match Queries.GetUserByID env db id with
  | .error .noRows => .error ("пользователь не найден")
  | .error (.failure m) => .error ("ошибка получения пользователя: " ++ m)
  | .ok user => .ok (toUserResponse user)

/-- The offset computation of services.UserService.ListUsers. -/
def computeOffset (page pageSize : Int) : Int :=
  (page - 1) * pageSize

/-- The total-pages computation of services.UserService.ListUsers: integer
division plus one when there is a remainder (Go / and % truncate toward zero). -/
def totalPagesCalc (totalCount pageSize : Int) : Int :=
  let totalPages := totalCount.tdiv pageSize
  if totalCount.tmod pageSize != 0 then totalPages + 1 else totalPages

/-- services.UserService.ListUsers: computes the offset, fetches the page and the
total count, converts the rows, and computes totalPages. -/
def UserService.ListUsers (env : ExecEnv) (db : DB) (req : ListUsersRequest) :
    Except String ListUsersResponse :=
  let offset := computeOffset req.page req.pageSize
  match Queries.ListUsers env db req.pageSize offset with
  | .error e => .error ("ошибка получения списка пользователей: " ++ e.message)
  | .ok users =>
    match Queries.CountUsers env db with
    | .error e => .error ("ошибка подсчета пользователей: " ++ e.message)
    | .ok totalCount =>
      .ok { users := users.map toUserResponse, totalCount := totalCount,
            page := req.page, pageSize := req.pageSize,
            totalPages := totalPagesCalc totalCount req.pageSize }

/-- services.UserService.UpdateUser builds nullable parameters from the request
pointers: a nil pointer stays the zero NullString/NullBool (NULL), a present
pointer becomes a valid value, even when it points at an empty string. -/
def buildUpdateParams (id : Int) (req : UpdateUserRequest) : UpdateUserParams :=
  { id := id,
    email := match req.email with
      | some v => { string := v, valid := true }
      | none => { string := "", valid := false },
    username := match req.username with
      | some v => { string := v, valid := true }
      | none => { string := "", valid := false },
    firstName := match req.firstName with
      | some v => { string := v, valid := true }
      | none => { string := "", valid := false },
    lastName := match req.lastName with
      | some v => { string := v, valid := true }
      | none => { string := "", valid := false },
    isActive := match req.isActive with
      | some b => { bool := b, valid := true }
      | none => { bool := false, valid := false } }

/-- services.UserService.UpdateUser: runs the COALESCE update and classifies
sql.ErrNoRows as the not-found message. -/
def UserService.UpdateUser (env : ExecEnv) (db : DB) (now : Int) (id : Int)
    (req : UpdateUserRequest) : DB × Except String UserResponse :=
  match Queries.UpdateUser env db now (buildUpdateParams id req) with
  | (db', .error .noRows) => (db', .error ("пользователь не найден"))
  | (db', .error (.failure m)) => (db', .error ("ошибка обновления пользователя: " ++ m))
  | (db', .ok u) => (db', .ok (toUserResponse u))

/-- services.UserService.DeleteUser: wraps any storage error; a delete that
matched no row is not an error. -/
def UserService.DeleteUser (env : ExecEnv) (db : DB) (id : Int) : DB × Except String Unit :=
  match Queries.DeleteUser env db id with
  | (db', .error e) => (db', .error ("ошибка удаления пользователя: " ++ e.message))
  | (db', .ok _) => (db', .ok ())

/-- services.UserService.VerifyPassword: fetches by email and compares the stored
hash; an unknown email and a failed comparison produce the same error value. -/
def UserService.VerifyPassword (check : String → String → Bool) (env : ExecEnv) (db : DB)
    (email password : String) : Except String UserResponse :=
  match Queries.GetUserByEmail env db email with
  | .error .noRows => .error ("неверный email или пароль")
  | .error (.failure m) => .error ("ошибка проверки пароля: " ++ m)
  | .ok user =>
    if check user.passwordHash password then .ok (toUserResponse user)
    else .error ("неверный email или пароль")

/-- The body of an HTTP response produced by the handlers. -/
inductive Body where
  | user (u : UserResponse)
  | userList (r : ListUsersResponse)
  | err (message code : String)
  | empty
deriving DecidableEq

/-- An HTTP response: status code plus body. -/
structure HttpResponse where
  status : Int
  body : Body
deriving DecidableEq

/-- Digit run of strconv.Atoi: accumulate decimal digits, fail on anything else. -/
def parseDigits (cs : List Char) : Option Nat :=
  cs.foldl (fun acc c =>
    match acc with
    | none => none
    | some n => if c.isDigit then some (n * 10 + (c.toNat - 48)) else none) (some 0)

/-- strconv.Atoi of the id path parameter: an optional sign followed by at least
one decimal digit. -/
def atoi (s : String) : Option Int :=
  match s.toList with
  | [] => none
  | '-' :: cs => if cs.isEmpty then none else (parseDigits cs).map (fun n => -(n : Int))
  | '+' :: cs => if cs.isEmpty then none else (parseDigits cs).map (fun n => (n : Int))
  | cs => (parseDigits cs).map (fun n => (n : Int))

/-- handlers.UserHandler.GetUser: parses the id and maps every service failure to
404 with code USER_NOT_FOUND. -/
def UserHandler.GetUser (env : ExecEnv) (db : DB) (idStr : String) : HttpResponse :=
  match atoi idStr with
  | none => { status := 400, body := .err ("Невалидный ID пользователя") ("INVALID_USER_ID") }
  | some id =>
    match UserService.GetUserByID env db id with
    | .error msg => { status := 404, body := .err msg ("USER_NOT_FOUND") }
    | .ok user => { status := 200, body := .user user }

/-- The parameter validation of handlers.UserHandler.ListUsers: defaults page 1
and page_size 10, QueryParser overwrites a default only when the key is present,
then page below 1 is reset to 1 and page_size outside [1,100] is reset to 10. -/
def validateListParams (pageParam pageSizeParam : Option Int) : Int × Int :=
  let page := pageParam.getD 1
  let pageSize := pageSizeParam.getD 10
  let page := if page < 1 then 1 else page
  let pageSize := if pageSize < 1 ∨ pageSize > 100 then 10 else pageSize
  (page, pageSize)

/-- handlers.UserHandler.ListUsers: validates the query parameters, calls the
service, and maps failure to 500 with code LIST_USERS_ERROR. -/
def UserHandler.ListUsers (env : ExecEnv) (db : DB) (pageParam pageSizeParam : Option Int) :
    HttpResponse :=
  let v := validateListParams pageParam pageSizeParam
  match UserService.ListUsers env db { page := v.1, pageSize := v.2 } with
  | .error msg => { status := 500, body := .err msg ("LIST_USERS_ERROR") }
  | .ok r => { status := 200, body := .userList r }

/-- handlers.UserHandler.UpdateUser: parses the id and maps every service failure
to 500 with code UPDATE_USER_ERROR. -/
def UserHandler.UpdateUser (env : ExecEnv) (db : DB) (now : Int) (idStr : String)
    (req : UpdateUserRequest) : HttpResponse :=
  match atoi idStr with
  | none => { status := 400, body := .err ("Невалидный ID пользователя") ("INVALID_USER_ID") }
  | some id =>
    match (UserService.UpdateUser env db now id req).2 with
    | .error msg => { status := 500, body := .err msg ("UPDATE_USER_ERROR") }
    | .ok user => { status := 200, body := .user user }

/-- handlers.UserHandler.DeleteUser: parses the id, maps service failure to 500
with code DELETE_USER_ERROR, and returns 204 with an empty body on success. -/
def UserHandler.DeleteUser (env : ExecEnv) (db : DB) (idStr : String) : HttpResponse :=
  match atoi idStr with
  | none => { status := 400, body := .err ("Невалидный ID пользователя") ("INVALID_USER_ID") }
  | some id =>
    match (UserService.DeleteUser env db id).2 with
    | .error msg => { status := 500, body := .err msg ("DELETE_USER_ERROR") }
    | .ok _ => { status := 204, body := .empty }

/-- An empty users table. -/
def emptyDB : DB :=
  { users := [], nextId := 1 }

/-- A seed row with the given id and creation time, used for concrete scenarios. -/
def mkSeedUser (i : Int) : User :=
  { id := i, email := "", username := "", passwordHash := "",
    firstName := { string := "", valid := false },
    lastName := { string := "", valid := false },
    isActive := true, createdAt := i, updatedAt := i }

/-- A table holding 25 users, for the concrete pagination scenario. -/
def db25 : DB :=
  { users := (List.range 25).map (fun i => mkSeedUser (Int.ofNat i)), nextId := 26 }

/-- Boolean check on a successful list result; false on error. -/
def listOk (e : Except String ListUsersResponse) (f : ListUsersResponse → Bool) : Bool :=
  match e with
  | .ok r => f r
  | .error _ => false

/-- What coalesce partial-update semantics means for one stored row: the stored
user found under the id after the update, and the response, reflect exactly the
supplied fields, each absent field keeping its stored value. -/
def UpdateCoalesceSpec (db : DB) (now id : Int) (req : UpdateUserRequest) (u : User) : Prop :=
  ∃ u', (UserService.UpdateUser ExecEnv.healthy db now id req).1.users.find?
          (fun x => x.id == id) = some u'
    ∧ (UserService.UpdateUser ExecEnv.healthy db now id req).2 = Except.ok (toUserResponse u')
    ∧ u'.email = (match req.email with | some v => v | none => u.email)
    ∧ u'.username = (match req.username with | some v => v | none => u.username)
    ∧ u'.firstName = (match req.firstName with
        | some v => { string := v, valid := true }
        | none => u.firstName)
    ∧ u'.lastName = (match req.lastName with
        | some v => { string := v, valid := true }
        | none => u.lastName)
    ∧ u'.isActive = (match req.isActive with | some b => b | none => u.isActive)
    ∧ u'.updatedAt = now
    ∧ u'.id = u.id
    ∧ u'.passwordHash = u.passwordHash
    ∧ u'.createdAt = u.createdAt

/-- What a successful list page looks like: at most pageSize rows, ordered by
creation time descending, with the total count and the ceiling totalPages. -/
def ListPageSpec (db : DB) (page pageSize : Int) : Prop :=
  ∃ r, UserService.ListUsers ExecEnv.healthy db { page := page, pageSize := pageSize }
        = Except.ok r
    ∧ r.users.length = min pageSize.toNat (db.users.length - (computeOffset page pageSize).toNat)
    ∧ List.Pairwise (fun a b => b.createdAt ≤ a.createdAt) r.users
    ∧ r.totalCount = (db.users.length : Int)
    ∧ r.page = page
    ∧ r.pageSize = pageSize
    ∧ r.totalPages = (r.totalCount + pageSize - 1) / pageSize

/-- The update pipeline on a missing id: the service surfaces the not-found
message and the handler maps it, like every other update failure, to 500 with
code UPDATE_USER_ERROR. -/
def UpdateNotFoundSpec (db : DB) (now : Int) (idStr : String) (id : Int)
    (req : UpdateUserRequest) : Prop :=
  (UserService.UpdateUser ExecEnv.healthy db now id req).2
      = Except.error ("пользователь не найден")
  ∧ UserHandler.UpdateUser ExecEnv.healthy db now idStr req
      = { status := 500, body := Body.err ("пользователь не найден") ("UPDATE_USER_ERROR") }
  ∧ ∀ (env : ExecEnv) (msg : String),
      (UserService.UpdateUser env db now id req).2 = Except.error msg →
      UserHandler.UpdateUser env db now idStr req
        = { status := 500, body := Body.err msg ("UPDATE_USER_ERROR") }

/-- How the GetUser handler actually maps service outcomes: 404 for every
failure (storage failures included) and 200 on success. -/
def GetPipelineSpec (db : DB) (idStr : String) (id : Int) : Prop :=
  (∀ m, UserHandler.GetUser (ExecEnv.failing m) db idStr
      = { status := 404,
          body := Body.err ("ошибка получения пользователя: " ++ m) ("USER_NOT_FOUND") })
  ∧ (db.users.find? (fun x => x.id == id) = none →
      UserHandler.GetUser ExecEnv.healthy db idStr
        = { status := 404, body := Body.err ("пользователь не найден") ("USER_NOT_FOUND") })
  ∧ (∀ u, db.users.find? (fun x => x.id == id) = some u →
      UserHandler.GetUser ExecEnv.healthy db idStr
        = { status := 200, body := Body.user (toUserResponse u) })

/-- Deleting an absent id is a no-op success through the whole pipeline. -/
def DeleteNoopSpec (db : DB) (idStr : String) (id : Int) : Prop :=
  UserService.DeleteUser ExecEnv.healthy db id = (db, Except.ok ())
  ∧ UserHandler.DeleteUser ExecEnv.healthy db idStr = { status := 204, body := Body.empty }

/-- Password verification: unknown email and wrong password produce the same
error value, and success happens exactly for a stored email whose hash matches. -/
def VerifySpec (check : String → String → Bool) (db : DB) (email password : String) : Prop :=
  (db.users.find? (fun u => u.email == email) = none →
      UserService.VerifyPassword check ExecEnv.healthy db email password
        = Except.error ("неверный email или пароль"))
  ∧ (∀ u, db.users.find? (fun u' => u'.email == email) = some u →
      check u.passwordHash password = false →
      UserService.VerifyPassword check ExecEnv.healthy db email password
        = Except.error ("неверный email или пароль"))
  ∧ (∀ r, UserService.VerifyPassword check ExecEnv.healthy db email password = Except.ok r ↔
      ∃ u, db.users.find? (fun u' => u'.email == email) = some u
        ∧ check u.passwordHash password = true
        ∧ r = toUserResponse u)

/-- How create maps the optional name fields: the plain request strings become
NULL exactly when empty, and the response reads them back accordingly. -/
def CreateOptionalFieldsSpec (hash : String → String) (db : DB) (now : Int)
    (req : CreateUserRequest) : Prop :=
  ∃ u, (UserService.CreateUser hash ExecEnv.healthy db now req).1.users = db.users ++ [u]
    ∧ (UserService.CreateUser hash ExecEnv.healthy db now req).2 = Except.ok (toUserResponse u)
    ∧ u.firstName = { string := req.firstName, valid := req.firstName != "" }
    ∧ u.lastName = { string := req.lastName, valid := req.lastName != "" }
    ∧ (toUserResponse u).firstName = (if req.firstName == "" then none else some req.firstName)
    ∧ (toUserResponse u).lastName = (if req.lastName == "" then none else some req.lastName)
    ∧ u.passwordHash = hash req.password
    ∧ u.isActive = true
    ∧ u.createdAt = now
    ∧ u.updatedAt = now

/-- The validated list parameters: how each supplied, absent, or out-of-range
query value maps to the pair the service is called with. -/
def ListParamValidationSpec (pageParam pageSizeParam : Option Int) : Prop :=
  let v := validateListParams pageParam pageSizeParam
  1 ≤ v.1 ∧ 1 ≤ v.2 ∧ v.2 ≤ 100
  ∧ (pageParam = none → v.1 = 1)
  ∧ (∀ w, pageParam = some w → (1 ≤ w → v.1 = w) ∧ (w < 1 → v.1 = 1))
  ∧ (pageSizeParam = none → v.2 = 10)
  ∧ (∀ w, pageSizeParam = some w →
      (1 ≤ w ∧ w ≤ 100 → v.2 = w) ∧ (w < 1 ∨ 100 < w → v.2 = 10))
  ∧ ∀ db : DB, ∃ r, UserHandler.ListUsers ExecEnv.healthy db pageParam pageSizeParam
      = { status := 200, body := Body.userList r } ∧ r.page = v.1 ∧ r.pageSize = v.2

/-- The safety consequences of the handler validation: the service is called
with page at least 1 and page_size in [1,100], the totalPages divisor is
nonzero, the offset is nonnegative, and the healthy list call succeeds. -/
def ListSafetySpec (pageParam pageSizeParam : Option Int) : Prop :=
  let v := validateListParams pageParam pageSizeParam
  1 ≤ v.1 ∧ 1 ≤ v.2 ∧ v.2 ≤ 100
  ∧ (v.2 == 0) = false
  ∧ 0 ≤ computeOffset v.1 v.2
  ∧ ∀ db : DB, ∃ r, UserService.ListUsers ExecEnv.healthy db { page := v.1, pageSize := v.2 }
      = Except.ok r

/-- A stored user for concrete update scenarios. -/
def userW : User :=
  { id := 1, email := "old@x.com", username := "olduser", passwordHash := "H",
    firstName := { string := "A", valid := true },
    lastName := { string := "", valid := false },
    isActive := true, createdAt := 0, updatedAt := 0 }

/-- A one-row table holding userW. -/
def dbW : DB :=
  { users := [userW], nextId := 2 }

/-- An update request that supplies email as the empty string, omits username
and first name, and supplies last name and is_active. -/
def reqW : UpdateUserRequest :=
  { email := some "", username := none, firstName := none, lastName := some "Z",
    isActive := some false }

/-- An abstract hash-comparison oracle for concrete verification scenarios. -/
def checkW : String → String → Bool :=
  fun h p => h == ("H:" ++ p)

/-- A stored user whose hash matches password pw under checkW. -/
def userV : User :=
  { id := 1, email := "a@x.com", username := "abc", passwordHash := "H:pw",
    firstName := { string := "", valid := false },
    lastName := { string := "", valid := false },
    isActive := true, createdAt := 0, updatedAt := 0 }

/-- A one-row table holding userV. -/
def dbV : DB :=
  { users := [userV], nextId := 2 }

/-- An abstract hash function for concrete create scenarios. -/
def hashC : String → String :=
  fun p => "bcrypt:" ++ p

/-- A create request that supplies both optional name fields explicitly as the
empty string. -/
def reqEmptyNames : CreateUserRequest :=
  { email := "a@x.com", username := "abc", password := "longenough",
    firstName := "", lastName := "" }

lemma applyUpdateRow_id (now : Int) (p : UpdateUserParams) (u : User) :
    (applyUpdateRow now p u).id = u.id := rfl

lemma find?_map_applyUpdate (now : Int) (p : UpdateUserParams) (id : Int) :
    ∀ (l : List User) (u : User), l.find? (fun x => x.id == id) = some u →
      (l.map (fun x => if x.id == id then applyUpdateRow now p x else x)).find?
          (fun x => x.id == id) = some (applyUpdateRow now p u) := by
  intro l
  induction l with
  | nil => intro u h; simp at h
  | cons x xs ih =>
    intro u h
    cases hx : (x.id == id) with
    | true =>
      rw [List.find?_cons_of_pos (p := fun (y : User) => y.id == id) xs hx] at h
      have hxu : x = u := by injection h
      subst hxu
      simp only [List.map_cons]
      rw [if_pos hx]
      exact List.find?_cons_of_pos (p := fun (y : User) => y.id == id) _ hx
    | false =>
      have hneg : ¬ ((x.id == id) = true) := by simp [hx]
      rw [List.find?_cons_of_neg (p := fun (y : User) => y.id == id) xs hneg] at h
      simp only [List.map_cons]
      rw [if_neg hneg]
      rw [List.find?_cons_of_neg (p := fun (y : User) => y.id == id) _ hneg]
      exact ih u h

lemma length_insertByCreated (u : User) :
    ∀ l : List User, (insertByCreated u l).length = l.length + 1 := by
  intro l
  induction l with
  | nil => rfl
  | cons v vs ih =>
    simp only [insertByCreated]
    split <;> simp [ih]

lemma length_sortByCreatedDesc :
    ∀ l : List User, (sortByCreatedDesc l).length = l.length := by
  intro l
  induction l with
  | nil => rfl
  | cons u us ih => simp [sortByCreatedDesc, length_insertByCreated, ih]

lemma mem_insertByCreated {u x : User} :
    ∀ {l : List User}, x ∈ insertByCreated u l → x = u ∨ x ∈ l := by
  intro l
  induction l with
  | nil =>
    intro h
    simp [insertByCreated] at h
    exact Or.inl h
  | cons v vs ih =>
    intro h
    simp only [insertByCreated] at h
    split at h
    · rcases List.mem_cons.mp h with rfl | h2
      · exact Or.inl rfl
      · exact Or.inr h2
    · rcases List.mem_cons.mp h with rfl | h2
      · exact Or.inr (List.mem_cons_self _ _)
      · rcases ih h2 with h3 | h3
        · exact Or.inl h3
        · exact Or.inr (List.mem_cons_of_mem _ h3)

lemma pairwise_insertByCreated (u : User) :
    ∀ l : List User, List.Pairwise (fun a b => b.createdAt ≤ a.createdAt) l →
      List.Pairwise (fun a b => b.createdAt ≤ a.createdAt) (insertByCreated u l) := by
  intro l
  induction l with
  | nil => intro _; simp [insertByCreated]
  | cons v vs ih =>
    intro h
    rcases List.pairwise_cons.mp h with ⟨hv, hvs⟩
    simp only [insertByCreated]
    by_cases hle : v.createdAt ≤ u.createdAt
    · rw [if_pos hle]
      refine List.pairwise_cons.mpr ⟨?_, h⟩
      intro w hw
      rcases List.mem_cons.mp hw with rfl | hw2
      · exact hle
      · exact le_trans (hv w hw2) hle
    · rw [if_neg hle]
      refine List.pairwise_cons.mpr ⟨?_, ih hvs⟩
      intro w hw
      rcases mem_insertByCreated hw with rfl | hw2
      · omega
      · exact hv w hw2

lemma pairwise_sortByCreatedDesc :
    ∀ l : List User, List.Pairwise (fun a b => b.createdAt ≤ a.createdAt) (sortByCreatedDesc l) := by
  intro l
  induction l with
  | nil => simp [sortByCreatedDesc]
  | cons u us ih => exact pairwise_insertByCreated u _ ih

lemma totalPagesCalc_eq_ceil (c s : Int) (hc : 0 ≤ c) (hs : 1 ≤ s) :
    totalPagesCalc c s = (c + s - 1) / s := by
  have hs0 : 0 < s := by omega
  have htd : c.tdiv s = c / s := Int.tdiv_eq_ediv hc (by omega)
  have htm : c.tmod s = c % s := Int.tmod_eq_emod hc (by omega)
  have hq : s * (c / s) + c % s = c := Int.ediv_add_emod c s
  have hr0 : 0 ≤ c % s := Int.emod_nonneg c (by omega)
  have hrs : c % s < s := Int.emod_lt_of_pos c hs0
  simp only [totalPagesCalc, htd, htm]
  by_cases hr : c % s = 0
  · have heq : (s - 1) + s * (c / s) = c + s - 1 := by linarith
    have hdiv := ((Int.ediv_emod_unique hs0).mpr ⟨heq, by omega, by omega⟩).1
    rw [if_neg (by simp [hr])]
    exact hdiv.symm
  · have hexp : s * (c / s + 1) = s * (c / s) + s := by ring
    have heq : (c % s - 1) + s * (c / s + 1) = c + s - 1 := by
      rw [hexp]; linarith
    have hdiv := ((Int.ediv_emod_unique hs0).mpr ⟨heq, by omega, by omega⟩).1
    rw [if_pos (by simpa using hr)]
    exact hdiv.symm

lemma validateListParams_bounds (pp ps : Option Int) :
    1 ≤ (validateListParams pp ps).1 ∧ 1 ≤ (validateListParams pp ps).2 ∧
      (validateListParams pp ps).2 ≤ 100 := by
  unfold validateListParams
  dsimp only
  refine ⟨?_, ?_, ?_⟩ <;> split_ifs <;> omega

lemma listUsers_healthy_eq (db : DB) (page pageSize : Int) (h1 : 1 ≤ page) (h2 : 1 ≤ pageSize) :
    UserService.ListUsers ExecEnv.healthy db { page := page, pageSize := pageSize }
      = Except.ok
          { users := (((sortByCreatedDesc db.users).drop (computeOffset page pageSize).toNat).take
                pageSize.toNat).map toUserResponse,
            totalCount := (db.users.length : Int), page := page, pageSize := pageSize,
            totalPages := totalPagesCalc (db.users.length : Int) pageSize } := by
  have hp : 0 ≤ page - 1 := by omega
  have hoff : 0 ≤ computeOffset page pageSize := by
    have := mul_nonneg hp (by omega : (0:Int) ≤ pageSize)
    simpa [computeOffset] using this
  have hcond : ¬(pageSize < 0 ∨ computeOffset page pageSize < 0) := by
    push_neg
    exact ⟨by omega, hoff⟩
  simp [UserService.ListUsers, Queries.ListUsers, Queries.CountUsers, hcond]

/-- Claim C1: UpdateUser implements coalesce partial-update semantics: for every
stored user and every update request, each optional field absent from the request
leaves the stored value unchanged, while a field explicitly present, even as an
empty string, overwrites the stored value. -/
theorem c1_update_coalesce (db : DB) (now id : Int) (req : UpdateUserRequest) (u : User)
    (h : db.users.find? (fun x => x.id == id) = some u) :
    UpdateCoalesceSpec db now id req u := by
  have hsvc : UserService.UpdateUser ExecEnv.healthy db now id req
      = ({ db with users := db.users.map (fun x => if x.id == id then applyUpdateRow now (buildUpdateParams id req) x else x) },
         Except.ok (toUserResponse (applyUpdateRow now (buildUpdateParams id req) u))) := by
    have hpid : (buildUpdateParams id req).id = id := rfl
    unfold UserService.UpdateUser Queries.UpdateUser
    simp only [hpid, h]
  refine ⟨applyUpdateRow now (buildUpdateParams id req) u, ?_, ?_, ?_, ?_, ?_, ?_, ?_,
    rfl, rfl, rfl, rfl⟩
  · rw [hsvc]
    exact find?_map_applyUpdate now (buildUpdateParams id req) id db.users u h
  · rw [hsvc]
  · cases he : req.email <;> simp [applyUpdateRow, buildUpdateParams, he]
  · cases he : req.username <;> simp [applyUpdateRow, buildUpdateParams, he]
  · cases he : req.firstName <;> simp [applyUpdateRow, buildUpdateParams, he]
  · cases he : req.lastName <;> simp [applyUpdateRow, buildUpdateParams, he]
  · cases he : req.isActive <;> simp [applyUpdateRow, buildUpdateParams, he]

/-- Claim C1 witness: on a one-row table, an update that supplies email as the
empty string, supplies last name and is_active, and omits the rest, overwrites
exactly the supplied fields. -/
theorem c1_update_coalesce_witness :
    dbW.users.find? (fun x => x.id == 1) = some userW
    ∧ UpdateCoalesceSpec dbW 5 1 reqW userW :=
  ⟨by decide, c1_update_coalesce dbW 5 1 reqW userW (by decide)⟩

/-- Claim C2: the wire User produced by toUserResponse is independent of the row's
password_hash (so carries no password-derived data), and the serialized wire User
never contains a password_hash key. -/
theorem c2_wire_no_password :
    (∀ (u : User) (h : String), toUserResponse { u with passwordHash := h } = toUserResponse u)
    ∧ ∀ r : UserResponse, r.jsonKeys.contains ("password_hash") = false := by
  constructor
  · intro u h
    rfl
  · intro r
    cases hf : r.firstName <;> cases hl : r.lastName <;>
      simp [UserResponse.jsonKeys, UserResponse.jsonFields, hf, hl]

/-- Claim C3 counterexample: a supplied page_size of 200 is reset to the default
10 rather than clamped to 100, and a supplied page_size of 0 is reset to 10
rather than raised to 1; the handler's response echoes page_size 10. -/
theorem c3_clamp_counterexample :
    (validateListParams none (some 200)).2 = 10
    ∧ ((validateListParams none (some 200)).2 == 100) = false
    ∧ (validateListParams none (some 0)).2 = 10
    ∧ ((validateListParams none (some 0)).2 == 1) = false
    ∧ UserHandler.ListUsers ExecEnv.healthy emptyDB none (some 200)
        = { status := 200,
            body := Body.userList
              { users := [], totalCount := 0, page := 1, pageSize := 10, totalPages := 0 } } := by
  decide

lemma handler_listUsers_healthy (db : DB) (pp ps : Option Int) :
    UserHandler.ListUsers ExecEnv.healthy db pp ps
      = { status := 200,
          body := Body.userList
            { users := (((sortByCreatedDesc db.users).drop
                  (computeOffset (validateListParams pp ps).1 (validateListParams pp ps).2).toNat).take
                  (validateListParams pp ps).2.toNat).map toUserResponse,
              totalCount := (db.users.length : Int),
              page := (validateListParams pp ps).1,
              pageSize := (validateListParams pp ps).2,
              totalPages := totalPagesCalc (db.users.length : Int) (validateListParams pp ps).2 } } := by
  obtain ⟨h1, h2, _⟩ := validateListParams_bounds pp ps
  simp [UserHandler.ListUsers, listUsers_healthy_eq db _ _ h1 h2]

/-- Claim C3 (amended): the List handler treats every supplied page_size outside
[1,100] the same way: it resets it to the default 10 (rather than clamping to
the nearest bound); an in-range value passes through unchanged and an absent
page_size defaults to 10; page defaults to 1 with floor 1. -/
theorem c3_list_param_validation (pp ps : Option Int) : ListParamValidationSpec pp ps := by
  obtain ⟨h1, h2, h3⟩ := validateListParams_bounds pp ps
  refine ⟨h1, h2, h3, ?_, ?_, ?_, ?_, ?_⟩
  · intro hpp
    subst hpp
    simp [validateListParams]
  · intro w hpp
    subst hpp
    constructor
    · intro hw
      unfold validateListParams
      dsimp only [Option.getD_some]
      split_ifs <;> omega
    · intro hw
      unfold validateListParams
      dsimp only [Option.getD_some]
      split_ifs <;> omega
  · intro hps
    subst hps
    simp [validateListParams]
  · intro w hps
    subst hps
    constructor
    · intro hw
      unfold validateListParams
      dsimp only [Option.getD_some]
      split_ifs <;> omega
    · intro hw
      unfold validateListParams
      dsimp only [Option.getD_some]
      split_ifs <;> omega
  · intro db
    exact ⟨_, handler_listUsers_healthy db pp ps, rfl, rfl⟩

/-- Claim C3 (amended) witness: page 0 is floored to 1 and page_size 150 is reset
to 10, and the handler echoes both. -/
theorem c3_list_param_validation_witness : ListParamValidationSpec (some 0) (some 150) :=
  c3_list_param_validation (some 0) (some 150)

/-- Claim C4: for every page and pageSize at least 1, ListUsers fetches at most
pageSize rows ordered by creation time descending from offset (page-1)*pageSize
and returns totalPages = ceil(totalCount / pageSize); in particular with 25 users
and pageSize 10, totalPages is 3, page 3 holds 5 users, and page 4 is an empty
list, not an error. -/
theorem c4_list_pagination :
    (∀ (db : DB) (page pageSize : Int), 1 ≤ page → 1 ≤ pageSize → ListPageSpec db page pageSize)
    ∧ listOk (UserService.ListUsers ExecEnv.healthy db25 { page := 3, pageSize := 10 })
        (fun r => r.totalPages == 3 && r.users.length == 5 && r.totalCount == 25) = true
    ∧ listOk (UserService.ListUsers ExecEnv.healthy db25 { page := 4, pageSize := 10 })
        (fun r => r.users.isEmpty && r.totalPages == 3) = true := by
  refine ⟨?_, by decide, by decide⟩
  intro db page pageSize h1 h2
  refine ⟨_, listUsers_healthy_eq db page pageSize h1 h2, ?_, ?_, rfl, rfl, rfl, ?_⟩
  · simp [List.length_take, List.length_drop, length_sortByCreatedDesc]
  · have hs := pairwise_sortByCreatedDesc db.users
    have hsub : (((sortByCreatedDesc db.users).drop (computeOffset page pageSize).toNat).take
        pageSize.toNat).Sublist (sortByCreatedDesc db.users) :=
      (List.take_sublist _ _).trans (List.drop_sublist _ _)
    have hp := List.Pairwise.sublist hsub hs
    exact List.pairwise_map.mpr (hp.imp (fun hab => hab))
  · exact totalPagesCalc_eq_ceil _ _ (Int.natCast_nonneg _) h2

/-- Claim C4 witness: the general pagination property instantiated at the
25-user table, page 3, pageSize 10. -/
theorem c4_list_pagination_witness :
    (1:Int) ≤ 3 ∧ (1:Int) ≤ 10 ∧ ListPageSpec db25 3 10 :=
  ⟨by decide, by decide, c4_list_pagination.1 db25 3 10 (by decide) (by decide)⟩

/-- Claim C5: updating an id that matches no stored user makes the service
surface the not-found failure, and the Update handler maps it, like every other
update failure, to HTTP 500 with code UPDATE_USER_ERROR rather than 404. -/
theorem c5_update_missing_maps_500 (db : DB) (now : Int) (idStr : String) (id : Int)
    (req : UpdateUserRequest) (hid : atoi idStr = some id)
    (h : db.users.find? (fun x => x.id == id) = none) :
    UpdateNotFoundSpec db now idStr id req := by
  have hsvc : (UserService.UpdateUser ExecEnv.healthy db now id req).2
      = Except.error ("пользователь не найден") := by
    have hpid : (buildUpdateParams id req).id = id := rfl
    unfold UserService.UpdateUser Queries.UpdateUser
    simp only [hpid, h]
  refine ⟨hsvc, ?_, ?_⟩
  · simp [UserHandler.UpdateUser, hid, hsvc]
  · intro env msg hmsg
    simp [UserHandler.UpdateUser, hid, hmsg]

/-- Claim C5 witness: updating id 1 on an empty table yields the not-found
service error and a 500 response with code UPDATE_USER_ERROR. -/
theorem c5_update_missing_maps_500_witness :
    atoi ("1") = some 1
    ∧ emptyDB.users.find? (fun x => x.id == 1) = none
    ∧ UpdateNotFoundSpec emptyDB 0 ("1") 1 reqW :=
  ⟨by decide, by decide, c5_update_missing_maps_500 emptyDB 0 ("1") 1 reqW (by decide) (by decide)⟩

/-- Claim C6 counterexample: an unclassified storage failure during GetUser is
returned as HTTP 404 with code USER_NOT_FOUND, not as HTTP 500 as claimed. -/
theorem c6_get_storage_failure_counterexample :
    UserHandler.GetUser (ExecEnv.failing ("connection refused")) emptyDB ("1")
      = { status := 404,
          body := Body.err ("ошибка получения пользователя: connection refused") ("USER_NOT_FOUND") }
    ∧ ((UserHandler.GetUser (ExecEnv.failing ("connection refused")) emptyDB ("1")).status == 500)
        = false := by
  decide

/-- Claim C6 (amended): for a well-formed integer id, the GetUser handler returns
404 for every service failure, storage failures included, and 200 with the wire
user on success; an unclassified storage failure is thus mapped to 404, not 500. -/
theorem c6_get_pipeline (db : DB) (idStr : String) (id : Int)
    (hid : atoi idStr = some id) : GetPipelineSpec db idStr id := by
  refine ⟨?_, ?_, ?_⟩
  · intro m
    simp [UserHandler.GetUser, hid, UserService.GetUserByID, Queries.GetUserByID]
  · intro h
    simp [UserHandler.GetUser, hid, UserService.GetUserByID, Queries.GetUserByID, h]
  · intro u h
    simp [UserHandler.GetUser, hid, UserService.GetUserByID, Queries.GetUserByID, h]

/-- Claim C6 (amended) witness: the Get pipeline mapping instantiated at the
empty table with path id 1. -/
theorem c6_get_pipeline_witness :
    atoi ("1") = some 1 ∧ GetPipelineSpec emptyDB ("1") 1 :=
  ⟨by decide, c6_get_pipeline emptyDB ("1") 1 (by decide)⟩

/-- Claim C7 counterexample: deleting id 1 from an empty table succeeds as a
no-op and the handler returns 204, rather than failing with NotFound. -/
theorem c7_delete_absent_noop_counterexample :
    (UserService.DeleteUser ExecEnv.healthy emptyDB 1).2 = Except.ok ()
    ∧ UserHandler.DeleteUser ExecEnv.healthy emptyDB ("1")
        = { status := 204, body := Body.empty } := by
  decide

/-- Claim C7 (amended): DeleteUser on an id with no matching row succeeds as a
no-op: the DELETE exec statement reports success, the service propagates it, the
table is unchanged, and the handler returns 204. -/
theorem c7_delete_absent_noop (db : DB) (idStr : String) (id : Int)
    (hid : atoi idStr = some id)
    (h : db.users.find? (fun x => x.id == id) = none) : DeleteNoopSpec db idStr id := by
  have hall := List.find?_eq_none.mp h
  have hfilter : db.users.filter (fun x => !(x.id == id)) = db.users := by
    apply List.filter_eq_self.mpr
    intro a ha
    have hfa : (a.id == id) = false := by
      cases hv : (a.id == id) with
      | true => exact absurd hv (hall a ha)
      | false => rfl
    simp [hfa]
  constructor
  · simp [UserService.DeleteUser, Queries.DeleteUser, hfilter]
  · simp [UserHandler.DeleteUser, hid, UserService.DeleteUser, Queries.DeleteUser, hfilter]

/-- Claim C7 (amended) witness: deleting id 1 from an empty table. -/
theorem c7_delete_absent_noop_witness :
    atoi ("1") = some 1
    ∧ emptyDB.users.find? (fun x => x.id == 1) = none
    ∧ DeleteNoopSpec emptyDB ("1") 1 :=
  ⟨by decide, by decide, c7_delete_absent_noop emptyDB ("1") 1 (by decide) (by decide)⟩

/-- Claim C8: VerifyPassword returns the same error value for an unknown email
as for a known email with a wrong password, and returns the wire User exactly
when the email is stored and the hash comparison succeeds. -/
theorem c8_verify_password (check : String → String → Bool) (db : DB)
    (email password : String) : VerifySpec check db email password := by
  refine ⟨?_, ?_, ?_⟩
  · intro h
    simp [UserService.VerifyPassword, Queries.GetUserByEmail, h]
  · intro u h hcheck
    simp [UserService.VerifyPassword, Queries.GetUserByEmail, h, hcheck]
  · intro r
    constructor
    · intro h
      cases hf : db.users.find? (fun u' => u'.email == email) with
      | none =>
        have hval : UserService.VerifyPassword check ExecEnv.healthy db email password
            = Except.error ("неверный email или пароль") := by
          simp [UserService.VerifyPassword, Queries.GetUserByEmail, hf]
        rw [hval] at h
        exact absurd h (by simp)
      | some u =>
        cases hc : check u.passwordHash password with
        | true =>
          have hval : UserService.VerifyPassword check ExecEnv.healthy db email password
              = Except.ok (toUserResponse u) := by
            simp [UserService.VerifyPassword, Queries.GetUserByEmail, hf, hc]
          rw [hval] at h
          injection h with h2
          exact ⟨u, rfl, hc, h2.symm⟩
        | false =>
          have hval : UserService.VerifyPassword check ExecEnv.healthy db email password
              = Except.error ("неверный email или пароль") := by
            simp [UserService.VerifyPassword, Queries.GetUserByEmail, hf, hc]
          rw [hval] at h
          exact absurd h (by simp)
    · rintro ⟨u, hf, hc, rfl⟩
      simp [UserService.VerifyPassword, Queries.GetUserByEmail, hf, hc]

/-- Claim C8 witness: on a one-user table, an unknown email and a wrong password
produce the identical error value, and the correct pair returns the wire user. -/
theorem c8_verify_password_witness :
    UserService.VerifyPassword checkW ExecEnv.healthy dbV ("missing@x.com") ("pw")
      = Except.error ("неверный email или пароль")
    ∧ UserService.VerifyPassword checkW ExecEnv.healthy dbV ("a@x.com") ("wrong")
      = Except.error ("неверный email или пароль")
    ∧ UserService.VerifyPassword checkW ExecEnv.healthy dbV ("a@x.com") ("pw")
      = Except.ok (toUserResponse userV) :=
  ⟨(c8_verify_password checkW dbV ("missing@x.com") ("pw")).1 (by decide),
   (c8_verify_password checkW dbV ("a@x.com") ("wrong")).2.1 userV (by decide) (by decide),
   ((c8_verify_password checkW dbV ("a@x.com") ("pw")).2.2 (toUserResponse userV)).mpr
     ⟨userV, by decide, by decide, rfl⟩⟩

/-- Claim C9 counterexample: a create request whose first_name and last_name are
explicitly the empty string is stored with the NULL (absent) marker and read
back as absent, identical to omission, rather than being stored as a present
empty string. -/
theorem c9_create_empty_collapsed_counterexample :
    ((UserService.CreateUser hashC ExecEnv.healthy emptyDB 0 reqEmptyNames).1.users.map
        (fun u => u.firstName)) = [{ string := "", valid := false }]
    ∧ ((UserService.CreateUser hashC ExecEnv.healthy emptyDB 0 reqEmptyNames).1.users.map
        (fun u => u.lastName.valid)) = [false]
    ∧ (UserService.CreateUser hashC ExecEnv.healthy emptyDB 0 reqEmptyNames).2
        = Except.ok { id := 1, email := "a@x.com", username := "abc", firstName := none,
                      lastName := none, isActive := true, createdAt := 0, updatedAt := 0 } := by
  decide

/-- Claim C9 (amended): for create requests, first_name and last_name supplied
as the empty string are collapsed to absent: the decoded request holds plain
strings, the service stores the empty string as NULL, and the response reads it
back as absent, indistinguishable from an omitted field; a nonempty value is
stored and read back as present. The absent/empty distinction exists only for
update requests. -/
theorem c9_create_optional_fields (hash : String → String) (db : DB) (now : Int)
    (req : CreateUserRequest) : CreateOptionalFieldsSpec hash db now req := by
  refine ⟨{ id := db.nextId, email := req.email, username := req.username,
            passwordHash := hash req.password,
            firstName := { string := req.firstName, valid := req.firstName != "" },
            lastName := { string := req.lastName, valid := req.lastName != "" },
            isActive := true, createdAt := now, updatedAt := now },
    rfl, rfl, rfl, rfl, ?_, ?_, rfl, rfl, rfl, rfl⟩
  · cases hf : req.firstName == "" <;> simp [toUserResponse, bne, hf]
  · cases hf : req.lastName == "" <;> simp [toUserResponse, bne, hf]

/-- Claim C10: after the List handler validation, the service is always called
with page at least 1 and page_size in [1,100]; the totalPages divisor is nonzero,
the computed offset is nonnegative, and the healthy list call always succeeds. -/
theorem c10_list_safety (pp ps : Option Int) : ListSafetySpec pp ps := by
  obtain ⟨h1, h2, h3⟩ := validateListParams_bounds pp ps
  refine ⟨h1, h2, h3, ?_, ?_, ?_⟩
  · have hne : ¬ ((validateListParams pp ps).2 = 0) := by omega
    simpa using hne
  · have hp : 0 ≤ (validateListParams pp ps).1 - 1 := by omega
    have := mul_nonneg hp (by omega : (0:Int) ≤ (validateListParams pp ps).2)
    simpa [computeOffset] using this
  · intro db
    exact ⟨_, listUsers_healthy_eq db _ _ h1 h2⟩
